import Mathlib

/-!
Verification development for the bbopt optimizer module (src/bbopt/optimizer.py).

The Python module is shallowly embedded: the optimizer object becomes an
explicit state record (`OptState`), Python dicts become association lists with
Python dict semantics (first-occurrence lookup, in-place overwrite on key
collision, append for fresh keys), the shared data file becomes an explicit
`Option Decoded` value threaded through the stateful operations (with `none`
standing for an empty file), and fallible methods return `Except PyError`.
Python exceptions are modelled as `PyError` values.  `time.time()` is modelled
by an explicit clock argument passed to the commit operation, since the source
reads the clock exactly once, inside the locked region of `_save_data`.
-/

namespace BBopt

/-- Parameter values and memo values as produced by a backend (opaque plain
Python data; equality is structural, like Python equality on these values). -/
inductive PVal where
  | pnum (n : Int)
  | pstr (s : String)
  | pbool (b : Bool)
  | pnull
deriving DecidableEq

/-- A parameter definition as stored by `_param` into `self._new_params`:
the `(func, args, kwargs)` tuple. -/
structure ParamDef where
  func : String
  args : List PVal
  kwargs : List (String × PVal)
deriving DecidableEq

/-- A reward value after normalization (`denumpy_all`): a plain number or a
plain sequence of numbers. -/
inductive RewardVal where
  | rnum (x : Int)
  | rseq (xs : List Int)
deriving DecidableEq

/-- One example record (the dict `self._current_example` and the entries of
`self._examples`): `values`, optional `memo`, optional `loss`/`gain` and
optional `timestamp` keys.  Structural equality of this record models Python
dict equality used by `ex not in self._examples`. -/
structure Example where
  values : List (String × PVal)
  memo : Option (List (String × PVal))
  loss : Option RewardVal
  gain : Option RewardVal
  timestamp : Option Int
deriving DecidableEq

/-- One value inside a decoded top-level mapping: the `params` slot of a
well-formed file decodes to a dict of parameter definitions, the `examples`
slot to a list of example records; anything else is an opaque foreign value. -/
inductive Part where
  | dictPart (d : List (String × ParamDef))
  | listPart (l : List Example)
  | otherPart (tag : Nat)
deriving DecidableEq

/-- A decoded file payload as produced by `self._loads`: either a top-level
mapping or some non-mapping value (list, number, string, ...), the latter kept
opaque because `_load_from` only pattern-matches the top level. -/
inductive Decoded where
  | mapping (kvs : List (String × Part))
  | nonMapping (tag : Nat)
deriving DecidableEq

/-- Python exceptions raised by the optimizer methods. -/
inductive PyError where
  | valueError (msg : String)
  | typeError (msg : String)
  | matchError
  | assertionError
  | attributeError
deriving DecidableEq

/-- The state of one `BlackBoxOptimizer` instance: `self._old_params` (typed
`Part` because `_load_from` assigns whatever the file held), `self._examples`,
`self._new_params`, `self._current_example`, and whether the active backend is
the serving backend (`isinstance(self.backend, backend_registry[None])`). -/
structure OptState where
  old_params : Part
  examples : List Example
  new_params : List (String × ParamDef)
  current_example : Example
  serving : Bool
deriving DecidableEq

/-- Python dict lookup `d[k]` / `d.get(k)` on an association list: the first
binding of the key (real Python dicts never hold a key twice). -/
def dictGet {α : Type} : List (String × α) → String → Option α
  | [], _ => none
  | p :: rest, k => if p.1 = k then some p.2 else dictGet rest k

/-- Python `k in d`. -/
def dictHas {α : Type} (kvs : List (String × α)) (k : String) : Bool :=
  (dictGet kvs k).isSome

/-- Python dict assignment `d[k] = v`: overwrite the existing binding in
place, else append the fresh binding at the end. -/
def dictSet {α : Type} : List (String × α) → String → α → List (String × α)
  | [], k, v => [(k, v)]
  | p :: rest, k, v => if p.1 = k then (k, v) :: rest else p :: dictSet rest k v

/-- Python `d.update(new)`: assign every binding of `new` into `d` in order. -/
def dictUpdate {α : Type} (d new : List (String × α)) : List (String × α) :=
  new.foldl (fun acc p => dictSet acc p.1 p.2) d

/-- The name argument of `_param`: possibly not a string, since the source
guards with `isinstance(name, Str)`. -/
inductive PyName where
  | strName (s : String)
  | nonStr (tag : Nat)
deriving DecidableEq

/-- Reward kind: the `reward_type` string, either `loss` or `gain`. -/
inductive RewardType where
  | lossT
  | gainT
deriving DecidableEq

/-- A value passed to `maximize`/`minimize` before normalization: a plain or
numpy scalar, a numpy `ndarray` of some shape, or a sequence of scalars. -/
inductive RewardScalar where
  | plainS (x : Int)
  | npS (x : Int)
deriving DecidableEq

inductive RewardInput where
  | scalar (s : RewardScalar)
  | ndarray (shape : List Nat) (elems : List Int)
  | seq (xs : List RewardScalar)
deriving DecidableEq

def denumpyScalar : RewardScalar → Int
  | .plainS x => x
  | .npS x => x

/-- Modelled from the spec: `denumpy_all` lives in bbopt/util.py, which is not
under src/; the spec describes it as the normalization pass making every value
plain (numeric-array-like values become a scalar or a plain sequence). -/
def denumpy_all : RewardInput → RewardVal
  | .scalar s => .rnum (denumpyScalar s)
  | .seq xs => .rseq (xs.map denumpyScalar)
  | .ndarray _ elems => .rseq elems

/-- Modelled from the spec: `param_processor.standardize_args` lives in
bbopt/params.py, which is not under src/; the spec calls it a shared
normalization step, modelled here as the identity normalization. -/
def standardize_args (_func : String) (args : List PVal) : List PVal := args

/-- Modelled from the spec: `param_processor.standardize_kwargs` from
bbopt/params.py (not under src/), modelled as the identity normalization. -/
def standardize_kwargs (kwargs : List (String × PVal)) : List (String × PVal) :=
  kwargs

/-- The property `self._got_reward`: whether the current example already has a
`loss` or `gain` key. -/
def _got_reward (st : OptState) : Bool :=
  st.current_example.loss.isSome || st.current_example.gain.isSome

/-- The method `tell_examples`: append each incoming example that is not
already present (Python `ex not in self._examples`, structural equality). -/
def tell_examples (exs : List Example) (incoming : List Example) : List Example :=
  incoming.foldl (fun acc ex => if ex ∈ acc then acc else acc ++ [ex]) exs

/-- Iterating the bound `examples` value in `_load_from`: a decoded list
iterates to its entries; iterating any of the other typed payloads cannot
yield example records, modelled as a type error. -/
def iterExamples : Part → Except PyError (List Example)
  | .listPart l => .ok l
  | _ => .error (.typeError "cannot iterate examples")

/-- The method `_load_from`: read the file contents (already decoded here,
`none` for an empty read), and on non-empty contents pattern-match the
top-level shape: a mapping of length exactly 2 carrying both the key params
and the key examples; on match store the bound params into `self._old_params`
and merge the bound examples via `tell_examples`; any other shape raises the
Coconut `MatchError`. -/
def _load_from (st : OptState) (contents : Option Decoded) : Except PyError OptState :=
  match contents with
  | none => .ok st
  | some (.nonMapping _) => .error .matchError
  | some (.mapping kvs) =>
    if kvs.length = 2 then
      match dictGet kvs "params", dictGet kvs "examples" with
      | some params, some examples =>
        match iterExamples examples with
        | .ok exs =>
          .ok { st with old_params := params,
                        examples := tell_examples st.examples exs }
        | .error e => .error e
      | _, _ => .error .matchError
    else .error .matchError

/-- The method `get_data`: `self._old_params.update(self._new_params)` (an
`AttributeError` when the loaded params are not a dict), then return the
aggregate payload holding the merged params and the examples. -/
def get_data (st : OptState) : Except PyError (OptState × Decoded) :=
  match st.old_params with
  | .dictPart d =>
    let merged := dictUpdate d st.new_params
    .ok ({ st with old_params := .dictPart merged },
         .mapping [("params", .dictPart merged), ("examples", .listPart st.examples)])
  | _ => .error .attributeError

/-- The method `_save_data`: assert the current example is not yet stamped;
under the exclusive file lock assign `timestamp` from the clock, merge the
current example into `self._examples`, re-read and re-decode the file via
`_load_from`, truncate, and write the `get_data` aggregate (returned here as
the new file contents, written and synced before the lock is released). -/
def _save_data (st : OptState) (fileContents : Option Decoded) (now : Int) :
    Except PyError (OptState × Decoded) :=
  if st.current_example.timestamp.isSome then .error .assertionError
  else
    let ex := { st.current_example with timestamp := some now }
    let st1 := { st with current_example := ex,
                         examples := tell_examples st.examples [ex] }
    (_load_from st1 fileContents).bind fun st2 => get_data st2

/-- The method `remember`: a usage error after a reward; otherwise
`self._current_example.setdefault("memo", {}).update(info)`. -/
def remember (st : OptState) (info : List (String × PVal)) : Except PyError OptState :=
  if _got_reward st then
    .error (.valueError "remember calls must come before maximize/minimize")
  else
    let memo0 := st.current_example.memo.getD []
    .ok { st with current_example :=
           { st.current_example with memo := some (dictUpdate memo0 info) } }

/-- The method `_param`: usage error after a reward; type error for a
non-string name; value error for a name already declared this run; otherwise
standardize the arguments, obtain the value from the backend (passed in here
as `backendValue`, the backend being an external strategy plugin), record the
definition in `self._new_params` and the value in the current example, and
return the value. -/
def _param (st : OptState) (name : PyName) (func : String) (args : List PVal)
    (kwargs : List (String × PVal)) (backendValue : PVal) :
    Except PyError (OptState × PVal) :=
  if _got_reward st then
    .error (.valueError "all parameter definitions must come before maximize/minimize")
  else
    match name with
    | .nonStr _ => .error (.typeError "name must be a string")
    | .strName s =>
      if dictHas st.new_params s then
        .error (.valueError "parameter of this name already exists")
      else
        let args1 := standardize_args func args
        let kwargs1 := standardize_kwargs kwargs
        .ok ({ st with
                new_params := dictSet st.new_params s ⟨func, args1, kwargs1⟩,
                current_example :=
                  { st.current_example with
                      values := dictSet st.current_example.values s backendValue } },
             backendValue)

/-- Storing the reward into the current example:
`self._current_example[reward_type] = ...`. -/
def setRewardField (st : OptState) (rt : RewardType) (v : RewardVal) : OptState :=
  match rt with
  | .lossT => { st with current_example := { st.current_example with loss := some v } }
  | .gainT => { st with current_example := { st.current_example with gain := some v } }

/-- Validation and normalization of the reward value in `_set_reward`: a numpy
array must be 1-dimensional and is converted by `tuple(value)` into a sequence
of numpy scalars; every value then passes through `denumpy_all`. -/
def normalizeReward : RewardInput → Except PyError RewardVal
  | .ndarray shape elems =>
    if shape.length ≠ 1 then
      .error (.valueError "gain/loss must be a scalar or 1-dimensional array")
    else .ok (denumpy_all (.seq (elems.map .npS)))
  | v => .ok (denumpy_all v)

/-- The trailing commit of `_set_reward`: `if not self.is_serving:
self._save_data()`.  Returns the new state together with the file contents
after the call (unchanged under the serving backend). -/
def commitIfNotServing (st : OptState) (file : Option Decoded) (now : Int) :
    Except PyError (OptState × Option Decoded) :=
  if st.serving then .ok (st, file)
  else (_save_data st file now).map fun p => (p.1, some p.2)

/-- The method `_set_reward`: usage error on a second reward; validate and
normalize the value; store it into the current example; commit to the data
file unless the serving backend is active. -/
def _set_reward (st : OptState) (rt : RewardType) (value : RewardInput)
    (file : Option Decoded) (now : Int) : Except PyError (OptState × Option Decoded) :=
  if _got_reward st then
    .error (.valueError "only one call to maximize or minimize is allowed")
  else
    match normalizeReward value with
    | .error e => .error e
    | .ok rv => commitIfNotServing (setRewardField st rt rv) file now

/-- The method `minimize`. -/
def minimize (st : OptState) (value : RewardInput) (file : Option Decoded) (now : Int) :
    Except PyError (OptState × Option Decoded) :=
  _set_reward st .lossT value file now

/-- The method `maximize`. -/
def maximize (st : OptState) (value : RewardInput) (file : Option Decoded) (now : Int) :
    Except PyError (OptState × Option Decoded) :=
  _set_reward st .gainT value file now

/-- The fresh current example set up by `run_backend`: the dict with a single
empty `values` slot. -/
def freshExample : Example :=
  { values := [], memo := none, loss := none, gain := none, timestamp := none }

/-- The state right after `reload` against an empty data file: `_old_params`
and `_examples` cleared, a fresh current example, the serving backend active
(`self.run(alg=None)`). -/
def freshState : OptState :=
  { old_params := .dictPart [], examples := [], new_params := [],
    current_example := freshExample, serving := true }

/-- The method `randrange`: `self._param(name, "randrange", *args)`. -/
def randrange (st : OptState) (name : PyName) (args : List PVal)
    (kwargs : List (String × PVal)) (backendValue : PVal) :
    Except PyError (OptState × PVal) :=
  _param st name "randrange" args kwargs backendValue

/-- The method `randint`: `start, stop = a, b - 1` then
`self.randrange(name, start, stop, **kwargs)`. -/
def randint (st : OptState) (name : PyName) (a b : Int)
    (kwargs : List (String × PVal)) (backendValue : PVal) :
    Except PyError (OptState × PVal) :=
  randrange st name [.pnum a, .pnum (b - 1)] kwargs backendValue

/-- A serialized trace of commits: each entry is the state of some process
together with the wall clock at the moment that process acquires the exclusive
lock.  The shared file is threaded through the successful commits; a failed
commit leaves the file untouched.  The returned list collects, in lock
acquisition order, the timestamp carried by each successfully committed
current example. -/
def serialCommits : Option Decoded → List (OptState × Int) → List Int
  | _, [] => []
  | file, (st, t) :: rest =>
    match _save_data st file t with
    | .ok (st2, payload) =>
      match st2.current_example.timestamp with
      | some ts => ts :: serialCommits (some payload) rest
      | none => serialCommits (some payload) rest
    | .error _ => serialCommits file rest

/-- A serialization protocol: the string protocol `json` or a pickle protocol
number. -/
inductive Protocol where
  | jsonP
  | pickleP (n : Nat)
deriving DecidableEq

/-- Whether a protocol is the binary (pickle) family. -/
def isBinary : Protocol → Bool
  | .jsonP => false
  | .pickleP _ => true

/-- Modelled from the spec: `default_protocol` lives in bbopt/constants.py,
which is not under src/; the spec says new sessions default to the binary
(pickle) format. -/
def default_protocol : Protocol := .pickleP 2

/-- Modelled from the spec: `data_file_ext` lives in bbopt/constants.py (not
under src/); the spec describes the data file path as the session base name
plus a fixed suffix plus an extension reflecting the format. -/
def data_file_ext : String := ".bbopt"

/-- The extension appended by the `data_file` property. -/
def protoExt (p : Protocol) : String :=
  if p = .jsonP then ".json" else ".pickle"

/-- The property `data_file`: base name plus fixed suffix plus
format-dependent extension. -/
def dataFile (base : String) (p : Protocol) : String :=
  base ++ data_file_ext ++ protoExt p

/-- Protocol selection in `BlackBoxOptimizer.__init__`: an explicit protocol
is used as given; otherwise the protocol is provisionally `json` and, when the
json data file does not exist on disk, falls back to `default_protocol`.  The
file system is abstracted as the predicate `pathExists`. -/
def selectProtocol (explicit : Option Protocol) (pathExists : String → Bool)
    (base : String) : Protocol :=
  match explicit with
  | some p => p
  | none => if pathExists (dataFile base .jsonP) then .jsonP else default_protocol

/-- A state in which the parameter named x has already been declared in the
current run (used as a concrete instance below). -/
def declaredState : OptState :=
  { freshState with new_params := [("x", ⟨"uniform", [], []⟩)] }

/-- A state whose current run has already received a reward (used as a
concrete instance below). -/
def rewardedState : OptState := setRewardField freshState .lossT (.rnum 0)

/-- A concrete serialized two-commit trace (used as a concrete instance
below). -/
def commitTrace : List (OptState × Int) := [(freshState, 1), (freshState, 2)]

/-! Helper lemmas about the dict operations. -/

theorem dictGet_dictSet_self {α : Type} (kvs : List (String × α)) (k : String) (v : α) :
    dictGet (dictSet kvs k v) k = some v := by
  induction kvs with
  | nil => simp [dictSet, dictGet]
  | cons p rest ih =>
    by_cases h : p.1 = k
    · simp [dictSet, dictGet, h]
    · simp [dictSet, dictGet, h, ih]

theorem dictGet_dictSet_ne {α : Type} (kvs : List (String × α)) (k k' : String) (v : α)
    (h : k' ≠ k) : dictGet (dictSet kvs k v) k' = dictGet kvs k' := by
  have hk : ¬k = k' := fun hh => h hh.symm
  induction kvs with
  | nil => simp [dictSet, dictGet, hk]
  | cons p rest ih =>
    by_cases hp : p.1 = k
    · simp [dictSet, dictGet, hp, hk]
    · simp only [dictSet, hp, if_false]
      by_cases hp' : p.1 = k'
      · simp [dictGet, hp']
      · simp [dictGet, hp', ih]

theorem mem_keys_of_dictGet {α : Type} (kvs : List (String × α)) (k : String) (v : α)
    (h : dictGet kvs k = some v) : k ∈ kvs.map Prod.fst := by
  induction kvs with
  | nil => simp [dictGet] at h
  | cons p rest ih =>
    by_cases hp : p.1 = k
    · simp [hp]
    · simp only [dictGet, hp, if_false] at h
      simp [ih h]

theorem dictGet_eq_none_of_not_mem {α : Type} (kvs : List (String × α)) (k : String)
    (h : k ∉ kvs.map Prod.fst) : dictGet kvs k = none := by
  induction kvs with
  | nil => rfl
  | cons p rest ih =>
    have h1 : ¬p.1 = k := fun hh => h (by simp [hh])
    have h2 : k ∉ rest.map Prod.fst := fun hh => h (by simp [hh])
    simp [dictGet, h1, ih h2]

theorem dictGet_dictUpdate_not_mem {α : Type} (d new : List (String × α)) (k : String)
    (h : k ∉ new.map Prod.fst) : dictGet (dictUpdate d new) k = dictGet d k := by
  induction new generalizing d with
  | nil => rfl
  | cons p rest ih =>
    have h1 : k ≠ p.1 := fun hh => h (by simp [hh])
    have h2 : k ∉ rest.map Prod.fst := fun hh => h (by simp [hh])
    show dictGet (dictUpdate (dictSet d p.1 p.2) rest) k = dictGet d k
    rw [ih (dictSet d p.1 p.2) h2, dictGet_dictSet_ne _ _ _ _ h1]

theorem dictGet_dictUpdate_of_get {α : Type} (d new : List (String × α)) (k : String) (v : α)
    (hnodup : (new.map Prod.fst).Nodup) (h : dictGet new k = some v) :
    dictGet (dictUpdate d new) k = some v := by
  induction new generalizing d with
  | nil => simp [dictGet] at h
  | cons p rest ih =>
    rw [List.map_cons, List.nodup_cons] at hnodup
    by_cases hp : p.1 = k
    · simp only [dictGet, hp, if_true] at h
      have hk : k ∉ rest.map Prod.fst := hp ▸ hnodup.1
      show dictGet (dictUpdate (dictSet d p.1 p.2) rest) k = some v
      rw [dictGet_dictUpdate_not_mem _ _ _ hk, hp, dictGet_dictSet_self]
      exact h
    · simp only [dictGet, hp, if_false] at h
      exact ih (dictSet d p.1 p.2) hnodup.2 h

/-! Helper lemmas about `tell_examples`. -/

theorem tell_examples_nil (xs : List Example) : tell_examples xs [] = xs := rfl

theorem tell_examples_cons (xs : List Example) (a : Example) (l : List Example) :
    tell_examples xs (a :: l)
      = tell_examples (if a ∈ xs then xs else xs ++ [a]) l := rfl

theorem tell_examples_nodup (xs l : List Example) (h : xs.Nodup) :
    (tell_examples xs l).Nodup := by
  induction l generalizing xs with
  | nil => exact h
  | cons a l ih =>
    rw [tell_examples_cons]
    by_cases ha : a ∈ xs
    · simpa [ha] using ih xs h
    · have : (xs ++ [a]).Nodup := by
        simp [List.nodup_append, h, ha]
      simpa [ha] using ih (xs ++ [a]) this

theorem mem_tell_examples_of_mem (xs l : List Example) (e : Example) (h : e ∈ xs) :
    e ∈ tell_examples xs l := by
  induction l generalizing xs with
  | nil => exact h
  | cons a l ih =>
    rw [tell_examples_cons]
    by_cases ha : a ∈ xs
    · simpa [ha] using ih xs h
    · simp only [ha, if_false]
      exact ih (xs ++ [a]) (List.mem_append_left _ h)

theorem mem_tell_examples_of_mem_incoming (xs l : List Example) (e : Example)
    (h : e ∈ l) : e ∈ tell_examples xs l := by
  induction l generalizing xs with
  | nil => simp at h
  | cons a l ih =>
    rw [tell_examples_cons]
    rcases List.mem_cons.mp h with rfl | hl
    · by_cases ha : e ∈ xs
      · simpa [ha] using mem_tell_examples_of_mem xs l e ha
      · simp only [ha, if_false]
        exact mem_tell_examples_of_mem _ l e (by simp)
    · by_cases ha : a ∈ xs <;> simp only [ha, if_true, if_false] <;> exact ih _ hl

theorem tell_examples_already_mem (xs : List Example) (e : Example) (h : e ∈ xs) :
    tell_examples xs [e] = xs := by
  rw [tell_examples_cons]
  simp [h, tell_examples_nil]

/-! Helper lemmas about `_load_from`, `get_data` and `_save_data`. -/

theorem load_from_preserves (st st' : OptState) (contents : Option Decoded)
    (h : _load_from st contents = .ok st') :
    st'.current_example = st.current_example ∧ st'.serving = st.serving ∧
      st'.new_params = st.new_params := by
  match contents with
  | none => simp [_load_from] at h; simp [← h]
  | some (.nonMapping t) => simp [_load_from] at h
  | some (.mapping kvs) =>
    simp only [_load_from] at h
    by_cases hlen : kvs.length = 2
    · simp only [hlen, if_true] at h
      rcases hp : dictGet kvs "params" with _ | p <;>
        rcases he : dictGet kvs "examples" with _ | e <;>
          simp [hp, he] at h
      rcases hit : iterExamples e with e' | exs <;> simp [hit] at h
      simp [← h]
    · simp [hlen] at h

theorem map_denumpy_npS (elems : List Int) :
    elems.map (denumpyScalar ∘ RewardScalar.npS) = elems := by
  induction elems with
  | nil => rfl
  | cons a l ih => simp [Function.comp, denumpyScalar, ih]

theorem load_from_wellformed (st : OptState) (P : List (String × ParamDef))
    (E : List Example) :
    _load_from st (some (.mapping [("params", .dictPart P), ("examples", .listPart E)]))
      = .ok { st with old_params := .dictPart P,
                      examples := tell_examples st.examples E } := by
  have h1 : dictGet [("params", Part.dictPart P), ("examples", Part.listPart E)] "params"
      = some (Part.dictPart P) := by
    simp [dictGet]
  have h2 : dictGet [("params", Part.dictPart P), ("examples", Part.listPart E)] "examples"
      = some (Part.listPart E) := by
    simp [dictGet]
  simp [_load_from, h1, h2, iterExamples]

theorem get_data_preserves (st st' : OptState) (payload : Decoded)
    (h : get_data st = .ok (st', payload)) :
    st'.current_example = st.current_example ∧ st'.serving = st.serving ∧
      st'.examples = st.examples := by
  match hop : st.old_params with
  | .dictPart d => simp [get_data, hop] at h; simp [← h.1]
  | .listPart l => simp [get_data, hop] at h
  | .otherPart t => simp [get_data, hop] at h

theorem save_data_timestamp (st st' : OptState) (file : Option Decoded) (now : Int)
    (payload : Decoded) (h : _save_data st file now = .ok (st', payload)) :
    st'.current_example.timestamp = some now := by
  rw [_save_data] at h
  by_cases hts : st.current_example.timestamp.isSome
  · rw [if_pos hts] at h
    exact absurd h (by simp)
  · rw [if_neg hts] at h
    dsimp only at h
    rcases hl : _load_from
        { st with
            current_example := { st.current_example with timestamp := some now },
            examples :=
              tell_examples st.examples
                [{ st.current_example with timestamp := some now }] } file with e | st2
    · rw [hl] at h
      exact absurd h (by simp [Except.bind])
    · rw [hl] at h
      simp only [Except.bind] at h
      have h1 := (get_data_preserves st2 st' payload h).1
      have h2 := (load_from_preserves _ st2 file hl).1
      rw [h1, h2]

theorem serialCommits_sublist (file : Option Decoded) (cs : List (OptState × Int)) :
    (serialCommits file cs).Sublist (cs.map Prod.snd) := by
  induction cs generalizing file with
  | nil => simp [serialCommits]
  | cons c rest ih =>
    rcases c with ⟨st, t⟩
    rcases hs : _save_data st file t with e | ⟨st2, payload⟩
    · simp only [serialCommits, hs, List.map_cons]
      exact (ih file).cons t
    · have hts : st2.current_example.timestamp = some t :=
        save_data_timestamp st st2 file t payload hs
      simp only [serialCommits, hs, hts, List.map_cons]
      exact (ih (some payload)).cons₂ t

/-! Claim theorems. -/

/-- C2: the examples list never gains two structurally-identical entries: the
merge preserves no-duplicates, and merging an example that is already present
(identical values, memo, reward and timestamp) leaves the list unchanged, so
committing the same example twice never produces two copies. -/
theorem c2_dedup_invariant :
    (∀ xs l : List Example, xs.Nodup → (tell_examples xs l).Nodup) ∧
    (∀ (xs : List Example) (e : Example), e ∈ xs → tell_examples xs [e] = xs) :=
  ⟨tell_examples_nodup, tell_examples_already_mem⟩

theorem c2_dedup_invariant_witness :
    (tell_examples [freshExample] [freshExample]).Nodup ∧
      tell_examples [freshExample] [freshExample] = [freshExample] :=
  ⟨c2_dedup_invariant.1 [freshExample] [freshExample] (by simp),
   c2_dedup_invariant.2 [freshExample] freshExample (by simp)⟩

/-- C3: within one run, once a reward has been set, declaring a parameter
raises a usage error, setting a reward a second time raises a usage error, and
calling remember raises a usage error, each returned synchronously to the
caller. -/
theorem c3_state_machine (st : OptState) (h : _got_reward st = true) :
    (∀ name func args kwargs bv,
      _param st name func args kwargs bv
        = .error (.valueError
            "all parameter definitions must come before maximize/minimize")) ∧
    (∀ rt value file now,
      _set_reward st rt value file now
        = .error (.valueError "only one call to maximize or minimize is allowed")) ∧
    (∀ info,
      remember st info
        = .error (.valueError "remember calls must come before maximize/minimize")) := by
  refine ⟨fun name func args kwargs bv => ?_, fun rt value file now => ?_, fun info => ?_⟩ <;>
    simp [_param, _set_reward, remember, h]

theorem c3_state_machine_witness :
    _param rewardedState (.strName "x") "uniform" [] [] (.pnum 0)
        = .error (.valueError
            "all parameter definitions must come before maximize/minimize") ∧
      remember rewardedState []
        = .error (.valueError "remember calls must come before maximize/minimize") :=
  ⟨(c3_state_machine rewardedState (by decide)).1 (.strName "x") "uniform" [] [] (.pnum 0),
   (c3_state_machine rewardedState (by decide)).2.2 []⟩

/-- C4: setting a reward triggers a commit to the exclusive file store exactly
when the active strategy is not the serving strategy; under the serving
strategy the data file and the in-memory examples list are left unchanged. -/
theorem c4_commit_iff_not_serving (st : OptState) (rt : RewardType)
    (value : RewardInput) (rv : RewardVal) (file : Option Decoded) (now : Int)
    (hg : _got_reward st = false) (hn : normalizeReward value = .ok rv) :
    (st.serving = true →
      _set_reward st rt value file now = .ok (setRewardField st rt rv, file) ∧
        (setRewardField st rt rv).examples = st.examples) ∧
    (st.serving = false →
      _set_reward st rt value file now
        = (_save_data (setRewardField st rt rv) file now).map fun p => (p.1, some p.2)) := by
  constructor
  · intro hserv
    have hs2 : (setRewardField st rt rv).serving = true := by
      cases rt <;> simpa [setRewardField] using hserv
    constructor
    · simp [_set_reward, hg, hn, commitIfNotServing, hs2]
    · cases rt <;> rfl
  · intro hserv
    have hs2 : (setRewardField st rt rv).serving = false := by
      cases rt <;> simpa [setRewardField] using hserv
    simp [_set_reward, hg, hn, commitIfNotServing, hs2]

theorem c4_commit_iff_not_serving_witness :
    _set_reward freshState .lossT (.scalar (.plainS 1)) none 0
        = .ok (setRewardField freshState .lossT (.rnum 1), none) ∧
      (setRewardField freshState .lossT (.rnum 1)).examples = freshState.examples :=
  (c4_commit_iff_not_serving freshState .lossT (.scalar (.plainS 1)) (.rnum 1)
    none 0 rfl rfl).1 rfl

/-- C5: every committed example takes its timestamp from the clock read while
the exclusive lock is held, so across any serialized sequence of commits the
committed timestamps are monotonically non-decreasing in lock-acquisition
order whenever the wall clock read at successive lock acquisitions is. -/
theorem c5_commit_timestamps (file : Option Decoded) (cs : List (OptState × Int))
    (hclock : (cs.map Prod.snd).Pairwise (· ≤ ·)) :
    (serialCommits file cs).Pairwise (· ≤ ·) ∧
    (∀ st st' t payload, _save_data st file t = .ok (st', payload) →
      st'.current_example.timestamp = some t) :=
  ⟨(hclock.sublist (serialCommits_sublist file cs)),
   fun st st' t payload h => save_data_timestamp st st' file t payload h⟩

theorem c5_commit_timestamps_witness :
    (serialCommits none commitTrace).Pairwise (· ≤ ·) :=
  (c5_commit_timestamps none commitTrace (by decide)).1

/-- C6: loading an empty data file yields an empty trial history, and any
decoded payload whose top-level shape is not exactly a mapping with the two
keys params and examples raises the fatal match error rather than being
silently discarded or repaired. -/
theorem c6_load_validation (st : OptState) :
    (_load_from st none = .ok st) ∧
    (freshState.old_params = Part.dictPart [] ∧ freshState.examples = ([] : List Example) ∧
      _load_from freshState none = .ok freshState) ∧
    (∀ t, _load_from st (some (.nonMapping t)) = .error .matchError) ∧
    (∀ kvs : List (String × Part),
      (kvs.map Prod.fst).toFinset ≠ ({"params", "examples"} : Finset String) →
      _load_from st (some (.mapping kvs)) = .error .matchError) := by
  refine ⟨rfl, ⟨rfl, rfl, rfl⟩, fun t => rfl, fun kvs hne => ?_⟩
  by_cases hlen : kvs.length = 2
  · rcases hp : dictGet kvs "params" with _ | p
    · simp [_load_from, hlen, hp]
    · rcases he : dictGet kvs "examples" with _ | e
      · simp [_load_from, hlen, hp, he]
      · exfalso
        apply hne
        obtain ⟨x, y, rfl⟩ := List.length_eq_two.mp hlen
        have hpm : "params" ∈ [x.1, y.1] := mem_keys_of_dictGet _ _ _ hp
        have hem : "examples" ∈ [x.1, y.1] := mem_keys_of_dictGet _ _ _ he
        have hgoal : (List.map Prod.fst [x, y]).toFinset = ({x.1, y.1} : Finset String) := by
          simp
        rw [hgoal]
        rcases List.mem_cons.mp hpm with h1 | h1'
        · rcases List.mem_cons.mp hem with h2 | h2'
          · exact absurd (h1.trans h2.symm) (by decide)
          · have h2 : "examples" = y.1 := List.mem_singleton.mp h2'
            rw [← h1, ← h2]
        · have h1 : "params" = y.1 := List.mem_singleton.mp h1'
          rcases List.mem_cons.mp hem with h2 | h2'
          · rw [← h1, ← h2]
            exact Finset.pair_comm _ _
          · have h2 : "examples" = y.1 := List.mem_singleton.mp h2'
            exact absurd (h1.trans h2.symm) (by decide)
  · simp [_load_from, hlen]

theorem c6_load_validation_witness :
    _load_from freshState none = .ok freshState ∧
      _load_from freshState (some (.nonMapping 0)) = .error .matchError ∧
      _load_from freshState (some (.mapping [])) = .error .matchError :=
  ⟨(c6_load_validation freshState).1,
   (c6_load_validation freshState).2.2.1 0,
   (c6_load_validation freshState).2.2.2 [] (by decide)⟩

/-- C7 counterexample: declaring a parameter whose name is the empty string
does not fail against a fresh run: the source checks only that the name is a
string and not a duplicate, so the empty-string name is accepted. -/
theorem c7_empty_name_accepted :
    _param freshState (.strName "") "uniform" [.pnum 0, .pnum 1] [] (.pnum 0)
      = .ok ({ freshState with
                new_params := [("", ⟨"uniform", [.pnum 0, .pnum 1], []⟩)],
                current_example := { freshExample with values := [("", .pnum 0)] } },
             .pnum 0) := by
  rfl

/-- C7 amended: declaring a parameter fails with an error when the name is not
a string, and when a parameter of the same name was already declared in the
current run; an empty-string name is not rejected. -/
theorem c7_param_name_validation (st : OptState) (func : String) (args : List PVal)
    (kwargs : List (String × PVal)) (bv : PVal) :
    (∀ t, ∃ e, _param st (.nonStr t) func args kwargs bv = .error e) ∧
    (∀ s, dictHas st.new_params s = true →
      ∃ e, _param st (.strName s) func args kwargs bv = .error e) := by
  constructor
  · intro t
    cases hgr : _got_reward st
    · exact ⟨.typeError "name must be a string", by simp [_param, hgr]⟩
    · exact ⟨.valueError "all parameter definitions must come before maximize/minimize",
        by simp [_param, hgr]⟩
  · intro s hs
    cases hgr : _got_reward st
    · exact ⟨.valueError "parameter of this name already exists",
        by simp [_param, hgr, hs]⟩
    · exact ⟨.valueError "all parameter definitions must come before maximize/minimize",
        by simp [_param, hgr]⟩

theorem c7_param_name_validation_witness :
    (∃ e, _param freshState (.nonStr 0) "uniform" [] [] (.pnum 0) = .error e) ∧
    (∃ e, _param declaredState (.strName "x") "uniform" [] [] (.pnum 0) = .error e) :=
  ⟨(c7_param_name_validation freshState "uniform" [] [] (.pnum 0)).1 0,
   (c7_param_name_validation declaredState "uniform" [] [] (.pnum 0)).2 "x" (by decide)⟩

/-- C8: setting a reward rejects a numeric array of rank greater than one with
a validation error, and normalizes numeric-array scalars and 1-dimensional
vectors to plain numbers and plain sequences before storing them in the
current example. -/
theorem c8_reward_normalization :
    (∀ st rt shape elems file now, 1 < shape.length → _got_reward st = false →
      _set_reward st rt (.ndarray shape elems) file now
        = .error (.valueError "gain/loss must be a scalar or 1-dimensional array")) ∧
    (∀ x : Int, normalizeReward (.scalar (.npS x)) = .ok (.rnum x)) ∧
    (∀ (n : Nat) (elems : List Int),
      normalizeReward (.ndarray [n] elems) = .ok (.rseq elems)) ∧
    (∀ st rt value rv file now, _got_reward st = false →
      normalizeReward value = .ok rv →
      _set_reward st rt value file now
        = commitIfNotServing (setRewardField st rt rv) file now) := by
  refine ⟨fun st rt shape elems file now hrank hg => ?_, fun x => rfl,
    fun n elems => ?_, fun st rt value rv file now hg hn => ?_⟩
  · have hne : shape.length ≠ 1 := by omega
    simp [_set_reward, hg, normalizeReward, hne]
  · simp [normalizeReward, denumpy_all, List.map_map, map_denumpy_npS]
  · simp [_set_reward, hg, hn]

theorem c8_reward_normalization_witness :
    _set_reward freshState .lossT (.ndarray [2, 2] [1, 2, 3, 4]) none 0
        = .error (.valueError "gain/loss must be a scalar or 1-dimensional array") ∧
      _set_reward freshState .gainT (.scalar (.npS 5)) none 0
        = commitIfNotServing (setRewardField freshState .gainT (.rnum 5)) none 0 :=
  ⟨(c8_reward_normalization).1 freshState .lossT [2, 2] [1, 2, 3, 4] none 0
      (by decide) rfl,
   (c8_reward_normalization).2.2.2 freshState .gainT (.scalar (.npS 5)) (.rnum 5)
      none 0 rfl rfl⟩

/-- C9: when no serialization format is supplied at construction, the session
selects the binary pickle format if the data file does not yet exist and
otherwise selects the format the existing data file already uses; an
explicitly supplied format is always used as given. -/
theorem c9_protocol_selection (pathExists : String → Bool) (base : String) :
    (∀ p, selectProtocol (some p) pathExists base = p) ∧
    (pathExists (dataFile base .jsonP) = false →
      pathExists (dataFile base default_protocol) = false →
      selectProtocol none pathExists base = default_protocol ∧
        isBinary (selectProtocol none pathExists base) = true) ∧
    (pathExists (dataFile base .jsonP) = true →
      selectProtocol none pathExists base = .jsonP) ∧
    (∀ n, pathExists (dataFile base .jsonP) = false →
      pathExists (dataFile base (.pickleP n)) = true →
      protoExt (selectProtocol none pathExists base) = protoExt (.pickleP n)) := by
  refine ⟨fun p => rfl, fun h1 _ => ?_, fun h1 => ?_, fun n h1 _ => ?_⟩
  · simp [selectProtocol, h1, default_protocol, isBinary]
  · simp [selectProtocol, h1]
  · simp [selectProtocol, h1, default_protocol, protoExt]

theorem c9_protocol_selection_witness :
    selectProtocol (some Protocol.jsonP) (fun _ => false) "prog" = Protocol.jsonP ∧
      (selectProtocol none (fun _ => false) "prog" = default_protocol ∧
        isBinary (selectProtocol none (fun _ => false) "prog") = true) :=
  ⟨(c9_protocol_selection (fun _ => false) "prog").1 Protocol.jsonP,
   (c9_protocol_selection (fun _ => false) "prog").2.1 rfl rfl⟩

/-- C10: for every name, a and b, the call randint(name, a, b) is the same
call as randrange(name, a, b - 1): the code passes a and b - 1 as the two
positional arguments of the underlying randrange parameter. -/
theorem c10_randint_is_randrange (st : OptState) (name : PyName) (a b : Int)
    (kwargs : List (String × PVal)) (bv : PVal) :
    randint st name a b kwargs bv
      = randrange st name [.pnum a, .pnum (b - 1)] kwargs bv := rfl

/-- C1: a commit of a finalized current run re-reads and re-decodes the data
file under the exclusive lock, merges the freshly-read examples into the
process's own example list deduplicating by full equality, merges the locally
declared parameter definitions into the freshly-read params with local
definitions winning on key collision, and the truncated file is rewritten with
exactly the merged aggregate (synced before the lock is released). -/
theorem c1_commit_merges (st : OptState) (P : List (String × ParamDef))
    (E : List Example) (now : Int)
    (hts : st.current_example.timestamp = none)
    (hnp : (st.new_params.map Prod.fst).Nodup)
    (hex : st.examples.Nodup) :
    _save_data st
        (some (.mapping [("params", .dictPart P), ("examples", .listPart E)])) now
      = .ok
        ({ st with
            current_example := { st.current_example with timestamp := some now },
            old_params := .dictPart (dictUpdate P st.new_params),
            examples :=
              tell_examples
                (tell_examples st.examples
                  [{ st.current_example with timestamp := some now }]) E },
          .mapping
            [("params", .dictPart (dictUpdate P st.new_params)),
             ("examples",
               .listPart
                 (tell_examples
                   (tell_examples st.examples
                     [{ st.current_example with timestamp := some now }]) E))]) ∧
    (∀ k v, dictGet st.new_params k = some v →
      dictGet (dictUpdate P st.new_params) k = some v) ∧
    (∀ k, k ∉ st.new_params.map Prod.fst →
      dictGet (dictUpdate P st.new_params) k = dictGet P k) ∧
    (∀ e, e ∈ E →
      e ∈ tell_examples
            (tell_examples st.examples
              [{ st.current_example with timestamp := some now }]) E) ∧
    (tell_examples
        (tell_examples st.examples
          [{ st.current_example with timestamp := some now }]) E).Nodup := by
  refine ⟨?_, fun k v h => dictGet_dictUpdate_of_get P st.new_params k v hnp h,
    fun k h => dictGet_dictUpdate_not_mem P st.new_params k h,
    fun e he => mem_tell_examples_of_mem_incoming _ E e he,
    tell_examples_nodup _ E (tell_examples_nodup st.examples _ hex)⟩
  rw [_save_data, hts]
  simp only [Option.isSome_none, Bool.false_eq_true, if_false]
  rw [load_from_wellformed]
  simp [Except.bind, get_data]

theorem c1_commit_merges_witness :
    _save_data freshState
        (some (.mapping [("params", .dictPart []), ("examples", .listPart [])])) 0
      = .ok
        ({ freshState with
            current_example := { freshState.current_example with timestamp := some 0 },
            old_params := .dictPart (dictUpdate [] freshState.new_params),
            examples :=
              tell_examples
                (tell_examples freshState.examples
                  [{ freshState.current_example with timestamp := some 0 }]) [] },
          .mapping
            [("params", .dictPart (dictUpdate [] freshState.new_params)),
             ("examples",
               .listPart
                 (tell_examples
                   (tell_examples freshState.examples
                     [{ freshState.current_example with timestamp := some 0 }]) []))]) :=
  (c1_commit_merges freshState [] [] 0 rfl (by decide) (by decide)).1

end BBopt
